import Mathlib

/-
Verification of the change-detection and documentation-generation core of the
davishacks documentation assistant.

The embedding follows the source:
* `generateDocStrings` / `generateDocstringsForFile` (source service module,
  part_001): staleness check against the tree snapshot, prompt construction,
  the external generation call, markdown fence stripping, and the write-back.
* `generateDocs` (cli, part_004): the batch `generate` command.
File system state, the snapshot (tree.json) and the external generation call
are made explicit: `ModelState` carries the parsed snapshot (`none` when
tree.json is absent) and the disk contents of tracked files; `GenOutcome` is
the outcome of the external collaborator call.
The tree-sitter helper module (generateHash, findFileInTree, updateFileHashes)
and DocManager are not part of the provided sources; they are modelled from
the spec where needed, each such definition marked `Modelled from the spec`.
-/

namespace DavisHacks

/-! ## Fence post-processing

Model of the response clean-up in `generateDocstringsForFile` (part_001,
lines 152-174).  The single-block regex `^(three backticks)(lang)?\n(inner)(three backticks)$`
is modelled by `singleBlockInner`; the global strip regex by `stripFences`;
`hasFence` models `multiBlockRegex.test`, i.e. the presence of a ``` token. -/

/-- Does the character list contain the fence token (three backticks) as a
contiguous substring?  Models `multiBlockRegex.test(processedText)`. -/
def hasFence : List Char → Bool
  | '`' :: '`' :: '`' :: _ => true
  | _ :: rest => hasFence rest
  | [] => false

/-- The language tag the strip regex glues to a fence token it replaces:
alternatives tried in the regex's order (tsx, ts, jsx, js, python, py,
nothing); the characters of the first matching tag are consumed. -/
def dropLang : List Char → List Char
  | 't' :: 's' :: 'x' :: r => r
  | 't' :: 's' :: r => r
  | 'j' :: 's' :: 'x' :: r => r
  | 'j' :: 's' :: r => r
  | 'p' :: 'y' :: 't' :: 'h' :: 'o' :: 'n' :: r => r
  | 'p' :: 'y' :: r => r
  | r => r

theorem dropLang_length_le (l : List Char) : (dropLang l).length ≤ l.length := by
  unfold dropLang
  split <;> simp <;> omega

/-- Global replacement of every fence token, with an optional language tag
glued to it, by the empty string: the JS `processedText.replace(multiBlockRegex, '')`
scanning left to right. -/
def stripFences : List Char → List Char
  | '`' :: '`' :: '`' :: r => stripFences (dropLang r)
  | c :: rest => c :: stripFences rest
  | [] => []
termination_by l => l.length
decreasing_by
  · rename_i r
    have := dropLang_length_le r
    simp only [List.length_cons]
    omega
  · simp

/-- After the opening fence token, consume the optional language tag and the
mandatory newline of the single-block regex, returning the remainder.
Alternatives are tried in the regex's order; each requires the following
newline, as the regex's backtracking does. -/
def afterLang : List Char → Option (List Char)
  | 't' :: 's' :: 'x' :: '\n' :: r => some r
  | 't' :: 's' :: '\n' :: r => some r
  | 'j' :: 's' :: 'x' :: '\n' :: r => some r
  | 'j' :: 's' :: '\n' :: r => some r
  | 'p' :: 'y' :: 't' :: 'h' :: 'o' :: 'n' :: '\n' :: r => some r
  | 'p' :: 'y' :: '\n' :: r => some r
  | '\n' :: r => some r
  | _ => none

/-- Does the character list end with the fence token (three backticks)? -/
def endsFence (l : List Char) : Bool :=
  match l.reverse with
  | '`' :: '`' :: '`' :: _ => true
  | _ => false

/-- The capture group of the single-block regex
`^(three backticks)(tsx?|jsx?|python|py)?\n([anything]*?)(three backticks)$`:
`some inner` when the whole text is one fenced block, `none` otherwise.
Because the closing fence is anchored at the end of the string, the
non-greedy group captures everything between the opening newline and the
final three characters. -/
def singleBlockInner (cs : List Char) : Option (List Char) :=
  match cs with
  | '`' :: '`' :: '`' :: rest =>
    match afterLang rest with
    | some body =>
      if endsFence body then some (body.take (body.length - 3)) else none
    | none => none
  | _ => none

/-- The single-block extraction step: replace the text by the captured inner
text when the response is one fenced block and the capture is nonempty (the
JS guard `match and match[1]` rejects an empty capture). -/
def extractInner (cs : List Char) : List Char :=
  match singleBlockInner cs with
  | some inner => if inner.isEmpty then cs else inner
  | none => cs

/-- The response post-processing of `generateDocstringsForFile` on character
lists: the single-block extraction, then the global strip of fence tokens
when any fence token remains. -/
def processResponseL (cs : List Char) : List Char :=
  let t1 := extractInner cs
  if hasFence t1 then stripFences t1 else t1

/-- String-level response post-processing. -/
def processResponse (s : String) : String :=
  String.mk (processResponseL s.data)

/-! ## File type detection and prompt construction (part_001, lines 93-146) -/

/-- The chained conditional of lines 94-105: extension to language name. -/
def detectFileType (fileExtension : String) : String :=
  if fileExtension = "ts" then "TypeScript"
  else if fileExtension = "tsx" then "TSX"
  else if fileExtension = "js" then "JavaScript"
  else if fileExtension = "jsx" then "JSX"
  else if fileExtension = "py" then "Python"
  else "Unknown"

/-- Model of `path.extname(filePath).substring(1)` on character lists: the
part of the path's last component after its last dot, empty when the last
component has no dot or only a leading dot. -/
def fileExtL (cs : List Char) : List Char :=
  let base := (cs.reverse.takeWhile (fun c => c ≠ '/')).reverse
  let revBase := base.reverse
  let extRev := revBase.takeWhile (fun c => c ≠ '.')
  match revBase.drop extRev.length with
  | [] => []
  | [_] => []
  | _ => extRev.reverse

/-- Model of `path.extname(filePath).substring(1)` on strings. -/
def fileExt (filePath : String) : String :=
  String.mk (fileExtL filePath.data)

/-- The prompt template up to the first interpolation hole (part_001 lines
108-109, the text of the backtick template literal before the fileType
hole). -/
def promptPre : String :=
  "\n Please analyze the following source code and generate comprehensive docstrings for every function, class, method, and interface. The file type is \""

/-- The prompt template between the fileType hole and the fileContents hole
(part_001 lines 109-145). -/
def promptMid : String :=
  "\" and requires language-appropriate documentation.

 For each element that needs documentation:
 1. Create a descriptive summary of what it does
 2. Document all parameters, including their types and purpose
 3. Document return values with their types and descriptions
 4. Document any errors or exceptions that might be thrown
 5. Include examples where helpful to demonstrate usage

 For TypeScript/TSX files:
 - Use JSDoc-style comments with /** ... */
 - Document parameters with @param {type} name - description
 - Document returns with @returns {type} description
 - Document interfaces, types and their properties
 - Note any generics or type constraints

 For JavaScript/JSX files:
 - Use JSDoc-style comments with /** ... */
 - Document parameters with @param {type} name - description
 - Document returns with @returns description
 - Include type hints where possible

 For Python files:
 - Use Google-style docstrings with triple quotes \"\"\"
 - Format parameters as \"Args:\" followed by indented parameter descriptions
 - Format return values as \"Returns:\" followed by indented descriptions
 - Document exceptions with \"Raises:\" section
 - Follow PEP 257 conventions

 IMPORTANT: Return the complete source code with added docstrings. DO NOT wrap the code in markdown code blocks (do not use ``` markers). Just return the actual code file itself with docstrings added.

 Maintain the existing code style and formatting. Only add or update docstrings—do not modify the actual code functionality. If an element already has partial documentation, enhance it rather than replacing it completely.

 Focus especially on public exports and APIs that other developers would need to understand to use this code effectively.

 Code:
 "

/-- The prompt template after the fileContents hole (part_001 lines
145-146). -/
def promptPost : String := "\n "

/-- The template literal of part_001 lines 108-146: the fixed instructional
text with the detected file type and the full file contents interpolated. -/
def buildPrompt (fileType fileContents : String) : String :=
  promptPre ++ fileType ++ promptMid ++ fileContents ++ promptPost

/-! ## Data model: snapshot records, disk state, generation outcomes -/

/-- A record of the tree snapshot: the tracked path and the content hash
stored at the last `updateFileHashes`.  The snapshot's further structural
metadata is not consulted by the change-detection code and is omitted. -/
structure FileRecord where
  path : String
  file_hash : String
deriving Repr, DecidableEq

/-- Modelled from the spec: `findFileInTree` of the tree-sitter helper module
(absent from the provided sources) — `findRecord(snapshot, path)`, an exact
path lookup returning the first match in traversal order. -/
def findFileInTree (tree : List FileRecord) (filePath : String) : Option FileRecord :=
  tree.find? (fun r => r.path == filePath)

/-- Update the record of `filePath` to carry hash `h`, replacing the first
record with this path, or appending a fresh record when the path is
untracked (spec: "mutates only the named records, creating new ones for
untracked paths"). -/
def setRecord : List FileRecord → String → String → List FileRecord
  | [], p, h => [⟨p, h⟩]
  | r :: rs, p, h => if r.path = p then ⟨p, h⟩ :: rs else r :: setRecord rs p h

/-- Disk contents of the workspace's files: an association of path to text.
A path that is absent is unreadable (`fs.readFileSync` throws for it). -/
abbrev FileTable := List (String × String)

/-- First-match lookup of a file's contents. -/
def lookupFile (files : FileTable) (filePath : String) : Option String :=
  (files.find? (fun e => e.1 == filePath)).map (fun e => e.2)

/-- Overwrite the contents stored for `filePath` (`fs.writeFileSync`). -/
def writeFile : FileTable → String → String → FileTable
  | [], p, c => [(p, c)]
  | e :: es, p, c => if e.1 = p then (p, c) :: es else e :: writeFile es p c

/-- The explicit state threaded through the orchestration: the parsed
snapshot (`none` models the absence of tree.json on disk) and the disk
contents of the files. -/
structure ModelState where
  treeJson : Option (List FileRecord)
  files : FileTable
deriving Repr, DecidableEq

/-- Outcome of the external text-generation call
(`googleAi.models.generateContent`): the call throws, or returns a response
whose `text` is the given string (the empty string standing for a response
with no usable text, which the source's truthiness test `if (response.text)`
treats the same way). -/
inductive GenOutcome where
  | genThrow
  | genOk (text : String)
deriving Repr, DecidableEq

/-- Result of `generateDocstringsForFile`: the boolean return value, the
state after any write-back, and the prompt submitted to the collaborator
(`none` when the file read failed before a prompt was built). -/
structure FileGenOut where
  success : Bool
  state : ModelState
  request : Option String
deriving Repr, DecidableEq

/-- The body of the `try` block of `generateDocstringsForFile` (part_001
lines 88-180): read the file, detect its type, build the prompt, submit it,
post-process the response and write it back to `filePath`.  `Except` makes
the two throwing operations (the file read and the external call) explicit. -/
def generateDocstringsBody (gen : GenOutcome) (st : ModelState) (filePath : String) :
    Except Unit FileGenOut :=
  match lookupFile st.files filePath with
  | none => .error ()
  | some fileContents =>
    let fileType := detectFileType (fileExt filePath)
    let docString := buildPrompt fileType fileContents
    match gen with
    | .genThrow => .error ()
    | .genOk t =>
      if t = "" then
        .ok ⟨false, st, some docString⟩
      else
        let processedText := processResponse t
        .ok ⟨true, { st with files := writeFile st.files filePath processedText },
             some docString⟩

/-- `generateDocstringsForFile` (part_001 lines 87-184): the body wrapped in
the catch-all of lines 181-183, which turns every thrown error into the
return value `false` with nothing written. -/
def generateDocstringsForFile (gen : GenOutcome) (st : ModelState) (filePath : String) :
    FileGenOut :=
  match generateDocstringsBody gen st filePath with
  | .ok r => r
  | .error _ => ⟨false, st, none⟩

/-- Modelled from the spec: `updateFileHashes` of the tree-sitter helper
module (absent from the provided sources) — `updateHashes(workspaceRoot,
paths)`: for every path in the list, recompute the hash of the file's
current on-disk content and commit it to the snapshot, creating records for
untracked paths; the snapshot is written back before returning.  `hashF` is
the deterministic content hasher (spec: ContentHasher). -/
def updateFileHashes (hashF : String → String) (st : ModelState) (paths : List String) :
    ModelState :=
  let tree := st.treeJson.getD []
  let newTree := paths.foldl
    (fun t p =>
      match lookupFile st.files p with
      | none => t
      | some c => setRecord t p (hashF c))
    tree
  { st with treeJson := some newTree }

/-- The staleness test of part_001 lines 67-68:
`!result || currentHash !== result.file_hash`. -/
def isStaleCode (currentHash : String) (result : Option FileRecord) : Bool :=
  match result with
  | none => true
  | some r => currentHash != r.file_hash

/-- An error escaping `generateDocStrings` (the file read of part_001 line 64
is outside every try block). -/
inductive DocError where
  | ioError
deriving Repr, DecidableEq

/-- Result of `generateDocStrings`: the boolean return value, the final
state, and whether `generateDocstringsForFile` (the helper containing the
external generation call) was invoked at all. -/
structure ProcResult where
  generated : Bool
  state : ModelState
  calledGen : Bool
deriving Repr, DecidableEq

/-- `generateDocStrings` (part_001 lines 51-79): when tree.json is absent,
generate without consulting hashes; otherwise look the file up in the tree,
compare the stored hash with the hash of the current content, and when they
differ (or no record exists) generate and then unconditionally update the
stored hash. -/
def generateDocStrings (hashF : String → String) (gen : GenOutcome) (st : ModelState)
    (filePath : String) : Except DocError ProcResult :=
  match st.treeJson with
  | none =>
    let r := generateDocstringsForFile gen st filePath
    .ok ⟨r.success, r.state, true⟩
  | some treeJson =>
    match lookupFile st.files filePath with
    | none => .error .ioError
    | some fileContents =>
      let result := findFileInTree treeJson filePath
      let currentHash := hashF fileContents
      let isDiff := isStaleCode currentHash result
      if isDiff then
        let r := generateDocstringsForFile gen st filePath
        .ok ⟨r.success, updateFileHashes hashF r.state [filePath], true⟩
      else
        .ok ⟨false, st, false⟩

/-- The snapshot record stored for `filePath`, `none` when the snapshot is
absent or has no record for the path. -/
def snapshotRecord (st : ModelState) (filePath : String) : Option FileRecord :=
  match st.treeJson with
  | none => none
  | some tree => findFileInTree tree filePath

/-- Modelled from the spec: a concrete deterministic content hasher standing
in for `generateHash` of the tree-sitter helper module (absent from the
provided sources), used to instantiate the hash-parametric theorems on
concrete inputs. -/
def demoHash (s : String) : String :=
  toString (s.data.foldl (fun a c => (a * 131 + c.toNat) % 1000003) 7)

/-! ## The batch `generate` command (part_004 lines 38-62) -/

/-- Per-file outcome recorded by the batch command. -/
inductive FileResult where
  | generated
  | skipped
  | failed
deriving Repr, DecidableEq

/-- Modelled from the spec: `DocManager.generateDocumentation` (DocManager is
absent from the provided sources) — applies the per-file process;
`GenerationFailure` is "recovered at per-file granularity, recorded as a
skipped/failed result" and `IOFailure` is "surfaced per-file, aborts that
file's processing only", so neither raises out of the per-file call. -/
def generateDocumentation (hashF : String → String) (gen : GenOutcome) (st : ModelState)
    (filePath : String) : FileResult × ModelState :=
  match generateDocStrings hashF gen st filePath with
  | .error _ => (.failed, st)
  | .ok r => (if r.generated then .generated else .skipped, r.state)

/-- The loop body state of `generateDocs`: results so far and current disk
state. -/
def generateDocsStep (hashF : String → String) (genOf : String → GenOutcome)
    (acc : List (String × FileResult) × ModelState) (p : String) :
    List (String × FileResult) × ModelState :=
  let out := generateDocumentation hashF (genOf p) acc.2 p
  (acc.1 ++ [(p, out.1)], out.2)

/-- `generateDocs` (part_004 lines 38-62): fetch the changed files (a throwing
collaborator, modelled by `changed`), return early when none; otherwise
process each in the given order, then render the HTML (another throwing
collaborator, modelled by `htmlOk`).  The surrounding try/catch turns any
top-level failure into `process.exit(1)`; the first component is the process
exit code. -/
def generateDocs (hashF : String → String) (genOf : String → GenOutcome)
    (changed : Except Unit (List String)) (htmlOk : Bool) (st : ModelState) :
    Nat × List (String × FileResult) × ModelState :=
  match changed with
  | .error _ => (1, [], st)
  | .ok files =>
    if files.isEmpty then (0, [], st)
    else
      let out := files.foldl (generateDocsStep hashF genOf) ([], st)
      if htmlOk then (0, out.1, out.2) else (1, out.1, out.2)

/-! ## Lemmas on fence post-processing -/

theorem stripFences_fence (r : List Char) :
    stripFences ('`' :: '`' :: '`' :: r) = stripFences (dropLang r) := by
  rw [stripFences]

theorem stripFences_cons (c : Char) (m : List Char)
    (h : ∀ x, c :: m ≠ '`' :: '`' :: '`' :: x) :
    stripFences (c :: m) = c :: stripFences m := by
  rw [stripFences.eq_def]
  split
  · rename_i x heq
    exact absurd heq (h x)
  · rename_i y head rest g heq
    injection heq with h1 h2
    subst h1
    subst h2
    rfl
  · rename_i y heq
    exact absurd heq (by simp)

theorem hasFence_cons (c : Char) (m : List Char)
    (h : ∀ x, c :: m ≠ '`' :: '`' :: '`' :: x) :
    hasFence (c :: m) = hasFence m := by
  rw [hasFence.eq_def]
  split
  · rename_i x heq
    exact absurd heq (h x)
  · rename_i y head rest g heq
    injection heq with h1 h2
    subst h1
    subst h2
    rfl
  · rename_i y heq
    exact absurd heq (by simp)

theorem stripFences_head_ne_bt (l : List Char)
    (h : ∀ x, l ≠ '`' :: x) : ∀ x, stripFences l ≠ '`' :: x := by
  intro x
  cases l with
  | nil => simp [stripFences]
  | cons c m =>
    have hc : c ≠ '`' := by
      intro hh
      exact h m (by rw [hh])
    rw [stripFences_cons c m (fun y hy => hc (List.cons.inj hy).1)]
    intro heq
    exact hc (List.cons.inj heq).1

theorem stripFences_head_ne_bb (l : List Char)
    (h : ∀ x, l ≠ '`' :: '`' :: x) : ∀ x, stripFences l ≠ '`' :: '`' :: x := by
  intro x
  cases l with
  | nil => simp [stripFences]
  | cons c m =>
    by_cases hc : c = '`'
    · subst hc
      have hm : ∀ y, m ≠ '`' :: y := by
        intro y hy
        exact h y (by rw [hy])
      rw [stripFences_cons '`' m (fun y hy => hm ('`' :: y) (List.cons.inj hy).2)]
      intro heq
      exact stripFences_head_ne_bt m hm x (List.cons.inj heq).2
    · rw [stripFences_cons c m (fun y hy => hc (List.cons.inj hy).1)]
      intro heq
      exact hc (List.cons.inj heq).1

theorem stripFences_nil : stripFences [] = [] := by
  rw [stripFences]

/-- The key recovery property of the strip pass: its output never contains a
fence token. -/
theorem hasFence_stripFences (l : List Char) : hasFence (stripFences l) = false := by
  induction l using stripFences.induct with
  | case1 tail ih =>
    rw [stripFences_fence]
    exact ih
  | case2 c rest g ih =>
    have hne : ∀ x, c :: rest ≠ '`' :: '`' :: '`' :: x := by
      intro x hx
      exact g x (List.cons.inj hx).1 (List.cons.inj hx).2
    rw [stripFences_cons c rest hne]
    by_cases hc : c = '`'
    · subst hc
      have hrest : ∀ x, rest ≠ '`' :: '`' :: x := fun x hx => (g x rfl hx).elim
      have hsf := stripFences_head_ne_bb rest hrest
      rw [hasFence_cons '`' (stripFences rest)
        (fun x hx => hsf x (List.cons.inj hx).2)]
      exact ih
    · rw [hasFence_cons c (stripFences rest) (fun x hx => hc (List.cons.inj hx).1)]
      exact ih
  | case3 =>
    rw [stripFences_nil]
    rfl

/-- Fence tokens never survive the response post-processing, whatever the
input. -/
theorem hasFence_processResponseL (cs : List Char) :
    hasFence (processResponseL cs) = false := by
  unfold processResponseL
  by_cases h : hasFence (extractInner cs) = true
  · simp only [h, if_true]
    exact hasFence_stripFences _
  · simp only [h, if_false]
    simpa using h

/-- The valid language tags of the single-block regex, as character lists. -/
def langTags : List (List Char) :=
  [[], ['t', 's'], ['t', 's', 'x'], ['j', 's'], ['j', 's', 'x'],
   ['p', 'y', 't', 'h', 'o', 'n'], ['p', 'y']]

theorem endsFence_append (inner : List Char) :
    endsFence (inner ++ ['`', '`', '`']) = true := by
  unfold endsFence
  rw [List.reverse_append]
  rfl

theorem afterLang_empty (r : List Char) : afterLang ('\n' :: r) = some r := rfl

theorem afterLang_ts (r : List Char) : afterLang ('t' :: 's' :: '\n' :: r) = some r := rfl

theorem afterLang_tsx (r : List Char) :
    afterLang ('t' :: 's' :: 'x' :: '\n' :: r) = some r := rfl

theorem afterLang_js (r : List Char) : afterLang ('j' :: 's' :: '\n' :: r) = some r := rfl

theorem afterLang_jsx (r : List Char) :
    afterLang ('j' :: 's' :: 'x' :: '\n' :: r) = some r := rfl

theorem afterLang_python (r : List Char) :
    afterLang ('p' :: 'y' :: 't' :: 'h' :: 'o' :: 'n' :: '\n' :: r) = some r := rfl

theorem afterLang_py (r : List Char) : afterLang ('p' :: 'y' :: '\n' :: r) = some r := rfl

theorem singleBlockInner_eq (rest : List Char) :
    singleBlockInner ('`' :: '`' :: '`' :: rest) =
      (match afterLang rest with
       | some body => if endsFence body then some (body.take (body.length - 3)) else none
       | none => none) := rfl

theorem singleBlockInner_wrap (lang inner : List Char) (hlang : lang ∈ langTags) :
    singleBlockInner ('`' :: '`' :: '`' :: (lang ++ '\n' :: (inner ++ ['`', '`', '`'])))
      = some inner := by
  simp only [langTags, List.mem_cons, List.not_mem_nil, or_false] at hlang
  have h3 : (inner ++ ['`', '`', '`']).length - 3 = inner.length := by
    simp
  rcases hlang with rfl | rfl | rfl | rfl | rfl | rfl | rfl <;>
    (simp only [List.cons_append, List.nil_append]
     rw [singleBlockInner_eq]
     first
     | rw [afterLang_empty]
     | rw [afterLang_ts]
     | rw [afterLang_tsx]
     | rw [afterLang_js]
     | rw [afterLang_jsx]
     | rw [afterLang_python]
     | rw [afterLang_py]
     show (if endsFence (inner ++ ['`', '`', '`']) = true
        then some (List.take ((inner ++ ['`', '`', '`']).length - 3) (inner ++ ['`', '`', '`']))
        else none) = some inner
     rw [endsFence_append, if_pos rfl, h3, List.take_left])

theorem extractInner_of_single (cs inner : List Char) (h : singleBlockInner cs = some inner)
    (hne : inner.isEmpty = false) : extractInner cs = inner := by
  unfold extractInner
  rw [h]
  simp [hne]

theorem processResponseL_no_strip (cs : List Char) (h : hasFence (extractInner cs) = false) :
    processResponseL cs = extractInner cs := by
  unfold processResponseL
  simp [h]

theorem processResponseL_wrap (lang inner : List Char) (hlang : lang ∈ langTags)
    (hne : inner.isEmpty = false) (hnf : hasFence inner = false) :
    processResponseL ('`' :: '`' :: '`' :: (lang ++ '\n' :: (inner ++ ['`', '`', '`'])))
      = inner := by
  have he := extractInner_of_single _ inner (singleBlockInner_wrap lang inner hlang) hne
  rw [processResponseL_no_strip _ (by rw [he]; exact hnf), he]

theorem string_data_append (a b : String) : (a ++ b).data = a.data ++ b.data := rfl

/-! ## Lemmas on the snapshot, the file table and the two processing layers -/

theorem findFileInTree_setRecord (tree : List FileRecord) (p h : String) :
    findFileInTree (setRecord tree p h) p = some ⟨p, h⟩ := by
  induction tree with
  | nil => simp [setRecord, findFileInTree]
  | cons r rs ih =>
    unfold setRecord
    by_cases hp : r.path = p
    · simp [hp, findFileInTree]
    · simp only [if_neg hp]
      unfold findFileInTree
      rw [List.find?_cons_of_neg _ (by simpa using hp)]
      exact ih

theorem lookupFile_writeFile (files : FileTable) (p c : String) :
    lookupFile (writeFile files p c) p = some c := by
  induction files with
  | nil => simp [writeFile, lookupFile]
  | cons e es ih =>
    unfold writeFile
    by_cases hp : e.1 = p
    · simp [hp, lookupFile]
    · simp only [if_neg hp]
      unfold lookupFile
      rw [List.find?_cons_of_neg _ (by simpa using hp)]
      exact ih

/-- Case characterization of `generateDocstringsForFile`: either the call
succeeds — the collaborator returned nonempty text for a readable file, the
processed text is written back and the submitted prompt is the template over
the detected type and the read contents — or it returns `false` and leaves
the state untouched. -/
theorem generateDocstringsForFile_spec (gen : GenOutcome) (st : ModelState) (p : String) :
    (∃ c t, lookupFile st.files p = some c ∧ gen = GenOutcome.genOk t ∧ t ≠ ""
      ∧ generateDocstringsForFile gen st p
          = ⟨true, { st with files := writeFile st.files p (processResponse t) },
             some (buildPrompt (detectFileType (fileExt p)) c)⟩)
    ∨ ((generateDocstringsForFile gen st p).success = false
        ∧ (generateDocstringsForFile gen st p).state = st) := by
  unfold generateDocstringsForFile generateDocstringsBody
  cases hl : lookupFile st.files p with
  | none => exact Or.inr ⟨rfl, rfl⟩
  | some c =>
    cases gen with
    | genThrow => exact Or.inr ⟨rfl, rfl⟩
    | genOk t =>
      by_cases ht : t = ""
      · subst ht
        exact Or.inr ⟨rfl, rfl⟩
      · refine Or.inl ⟨c, t, rfl, rfl, ht, ?_⟩
        simp only [if_neg ht]

/-- The helper never touches the snapshot: only the file at `filePath` can be
written. -/
theorem generateDocstringsForFile_treeJson (gen : GenOutcome) (st : ModelState) (p : String) :
    (generateDocstringsForFile gen st p).state.treeJson = st.treeJson := by
  rcases generateDocstringsForFile_spec gen st p with ⟨c, t, _, _, _, heq⟩ | ⟨_, heq⟩
  · rw [heq]
  · rw [heq]

/-- `generateDocStrings` in the branch where tree.json is absent (part_001
lines 56-59). -/
theorem generateDocStrings_noTree (hashF : String → String) (gen : GenOutcome)
    (st : ModelState) (p : String) (h : st.treeJson = none) :
    generateDocStrings hashF gen st p
      = .ok ⟨(generateDocstringsForFile gen st p).success,
             (generateDocstringsForFile gen st p).state, true⟩ := by
  unfold generateDocStrings
  rw [h]

/-- `generateDocStrings` in the no-change branch (part_001 lines 77-78). -/
theorem generateDocStrings_skip (hashF : String → String) (gen : GenOutcome)
    (st : ModelState) (p : String) (tree : List FileRecord) (c : String)
    (h1 : st.treeJson = some tree) (h2 : lookupFile st.files p = some c)
    (h3 : isStaleCode (hashF c) (findFileInTree tree p) = false) :
    generateDocStrings hashF gen st p = .ok ⟨false, st, false⟩ := by
  unfold generateDocStrings
  rw [h1, h2]
  simp only [h3, Bool.false_eq_true, if_false]

/-- `generateDocStrings` in the stale branch (part_001 lines 70-75): generate,
then unconditionally commit the hash of the current on-disk content. -/
theorem generateDocStrings_stale (hashF : String → String) (gen : GenOutcome)
    (st : ModelState) (p : String) (tree : List FileRecord) (c : String)
    (h1 : st.treeJson = some tree) (h2 : lookupFile st.files p = some c)
    (h3 : isStaleCode (hashF c) (findFileInTree tree p) = true) :
    generateDocStrings hashF gen st p
      = .ok ⟨(generateDocstringsForFile gen st p).success,
             updateFileHashes hashF (generateDocstringsForFile gen st p).state [p], true⟩ := by
  unfold generateDocStrings
  rw [h1, h2]
  simp only [h3, if_true]

/-- `updateFileHashes` on a single readable path. -/
theorem updateFileHashes_single (hashF : String → String) (st : ModelState)
    (p : String) (tree : List FileRecord) (c : String)
    (h1 : st.treeJson = some tree) (h2 : lookupFile st.files p = some c) :
    updateFileHashes hashF st [p]
      = { st with treeJson := some (setRecord tree p (hashF c)) } := by
  unfold updateFileHashes
  rw [h1]
  simp [h2]

/-- The successful run of `generateDocstringsForFile`: readable file,
collaborator returns nonempty text. -/
theorem generateDocstringsForFile_ok (gen : GenOutcome) (st : ModelState) (p c t : String)
    (hc : lookupFile st.files p = some c) (hg : gen = GenOutcome.genOk t) (ht : t ≠ "") :
    generateDocstringsForFile gen st p
      = ⟨true, { st with files := writeFile st.files p (processResponse t) },
         some (buildPrompt (detectFileType (fileExt p)) c)⟩ := by
  subst hg
  unfold generateDocstringsForFile generateDocstringsBody
  rw [hc]
  simp only [if_neg ht]

/-- When the collaborator throws, the catch of part_001 lines 181-183 yields
`false` with nothing written. -/
theorem generateDocstringsForFile_throw (st : ModelState) (p : String) :
    generateDocstringsForFile GenOutcome.genThrow st p = ⟨false, st, none⟩ := by
  unfold generateDocstringsForFile generateDocstringsBody
  cases hl : lookupFile st.files p <;> rfl

/-- After a call whose input file was readable, the file is still readable
(its content is either untouched or freshly written). -/
theorem generateDocstringsForFile_lookup (gen : GenOutcome) (st : ModelState) (p c : String)
    (hc : lookupFile st.files p = some c) :
    ∃ c2, lookupFile (generateDocstringsForFile gen st p).state.files p = some c2 := by
  rcases generateDocstringsForFile_spec gen st p with ⟨c0, t0, _, _, _, heq⟩ | ⟨_, hstate⟩
  · exact ⟨processResponse t0, by rw [heq]; exact lookupFile_writeFile _ _ _⟩
  · exact ⟨c, by rw [hstate]; exact hc⟩

/-- `updateFileHashes` never touches the files, only the snapshot. -/
theorem updateFileHashes_files (hashF : String → String) (st : ModelState)
    (paths : List String) : (updateFileHashes hashF st paths).files = st.files := rfl

/-! ## Claim C1: the snapshot hash is committed even when generation fails -/

/-- C1 is a code bug, witnessed here: tree.json records hash "OLD" for
`a.ts`, the current content hashes differently, so the file is stale and
generation runs; the external call throws, `generateDocstringsForFile`
returns false and writes nothing — yet the unconditional
`updateFileHashes(process.cwd(), [filePath])` of part_001 line 73 rewrites
the snapshot's record for `a.ts` to the hash of the unchanged current
content.  The stored hash thus changes from its pre-call value ("OLD")
despite the failed generation, contradicting the claimed no-partial-commit
property (and permanently marking the file as documented although no
documentation was ever produced). -/
theorem c1_failed_generation_still_commits_hash :
    generateDocStrings demoHash GenOutcome.genThrow
        ⟨some [⟨"a.ts", "OLD"⟩], [("a.ts", "const x = 1;")]⟩ "a.ts"
      = .ok ⟨false, ⟨some [⟨"a.ts", demoHash "const x = 1;"⟩],
                     [("a.ts", "const x = 1;")]⟩, true⟩
    ∧ demoHash "const x = 1;" ≠ "OLD" := by
  exact ⟨rfl, by decide⟩

/-! ## Claim C2: the staleness classification -/

/-- C2: the change detector's test (part_001 line 68,
`!result || currentHash !== result.file_hash`) classifies a file as stale
iff either no record for the path exists in the snapshot, or the record
found for the path stores a hash different from the hash of the current
content. -/
theorem c2_stale_iff (hashF : String → String) (tree : List FileRecord) (p c : String) :
    isStaleCode (hashF c) (findFileInTree tree p) = true
      ↔ ((∀ r ∈ tree, r.path ≠ p)
          ∨ ∃ r, findFileInTree tree p = some r ∧ hashF c ≠ r.file_hash) := by
  cases hf : findFileInTree tree p with
  | none =>
    simp only [isStaleCode]
    constructor
    · intro _
      left
      intro r hr hp
      unfold findFileInTree at hf
      exact List.find?_eq_none.mp hf r hr (by simpa using hp)
    · intro _
      trivial
  | some r =>
    simp only [isStaleCode]
    constructor
    · intro h
      right
      exact ⟨r, rfl, by simpa using h⟩
    · intro h
      rcases h with habs | ⟨r2, hr2, hne⟩
      · unfold findFileInTree at hf
        have hmem := List.mem_of_find?_eq_some hf
        have hbeq := List.find?_some hf
        exact absurd (by simpa using hbeq) (habs r hmem)
      · injection hr2 with hr2
        subst hr2
        simpa using hne

/-! ## Claim C6: an unchanged file is skipped without any external call -/

/-- C6: when the snapshot records the file with exactly the hash of its
current content, `generateDocStrings` returns false (Skipped), leaves the
state untouched, and never enters `generateDocstringsForFile` — so the
external text-generation collaborator is not invoked, whatever it would
have answered. -/
theorem c6_unchanged_skips (hashF : String → String) (gen : GenOutcome) (st : ModelState)
    (tree : List FileRecord) (p c : String) (rec : FileRecord)
    (h1 : st.treeJson = some tree) (h2 : lookupFile st.files p = some c)
    (h3 : findFileInTree tree p = some rec) (h4 : rec.file_hash = hashF c) :
    generateDocStrings hashF gen st p = .ok ⟨false, st, false⟩ := by
  apply generateDocStrings_skip hashF gen st p tree c h1 h2
  rw [h3]
  simp [isStaleCode, h4]

/-- C6, witness: a concrete snapshot recording the current content's hash;
the collaborator argument is the throwing one, showing the result does not
depend on it. -/
theorem c6_unchanged_skips_witness :
    generateDocStrings demoHash GenOutcome.genThrow
        ⟨some [⟨"b.ts", demoHash "content"⟩], [("b.ts", "content")]⟩ "b.ts"
      = .ok ⟨false, ⟨some [⟨"b.ts", demoHash "content"⟩], [("b.ts", "content")]⟩, false⟩ :=
  c6_unchanged_skips demoHash GenOutcome.genThrow
    ⟨some [⟨"b.ts", demoHash "content"⟩], [("b.ts", "content")]⟩
    [⟨"b.ts", demoHash "content"⟩] "b.ts" "content" ⟨"b.ts", demoHash "content"⟩
    rfl rfl rfl rfl

/-! ## Claim C3: first run without a snapshot file -/

/-- C3, counterexample: with no snapshot file, processing `a.ts` (content
"const x = 1;") with a successful generation returns true (Generated) — but
the branch of part_001 lines 56-59 never calls `updateFileHashes`, so
afterwards the snapshot still does not exist and holds no record for
`a.ts`, contradicting the claim that the subsequent snapshot contains a
record with `file_hash = hash("const x = 1;")`. -/
theorem c3_counterexample :
    generateDocStrings demoHash (GenOutcome.genOk "docs")
        ⟨none, [("a.ts", "const x = 1;")]⟩ "a.ts"
      = .ok ⟨true, ⟨none, [("a.ts", "docs")]⟩, true⟩
    ∧ snapshotRecord ⟨none, [("a.ts", "docs")]⟩ "a.ts" = none := ⟨rfl, rfl⟩

/-- C3 (amended): on a first run (no snapshot file) with a readable candidate
and a successful nonempty generation, processing returns Generated (true)
and writes the processed text to the file — but the snapshot is neither
created nor updated: afterwards there is still no record for the path. -/
theorem c3_first_run (hashF : String → String) (st : ModelState) (p c t : String)
    (htree : st.treeJson = none) (hc : lookupFile st.files p = some c) (ht : t ≠ "") :
    generateDocStrings hashF (GenOutcome.genOk t) st p
      = .ok ⟨true, { treeJson := none, files := writeFile st.files p (processResponse t) },
             true⟩
    ∧ snapshotRecord
        { treeJson := none, files := writeFile st.files p (processResponse t) } p
      = none := by
  refine ⟨?_, rfl⟩
  rw [generateDocStrings_noTree hashF _ st p htree,
    generateDocstringsForFile_ok _ st p c t hc rfl ht]
  rw [htree]

/-- C3, witness: the amended first-run theorem at the scenario's concrete
input. -/
theorem c3_first_run_witness :
    generateDocStrings demoHash (GenOutcome.genOk "body")
        ⟨none, [("a.ts", "const x = 1;")]⟩ "a.ts"
      = .ok ⟨true, ⟨none, [("a.ts", "body")]⟩, true⟩
    ∧ snapshotRecord ⟨none, [("a.ts", "body")]⟩ "a.ts" = none := by
  have h := c3_first_run demoHash ⟨none, [("a.ts", "const x = 1;")]⟩ "a.ts"
    "const x = 1;" "body" rfl rfl (by decide)
  simpa using h

/-! ## Claim C4: idempotence of processing -/

/-- C4, counterexample: with no snapshot file, the first call generates and
returns true — and so does an immediately repeated call on the resulting
state (nothing modified the file in between): the no-snapshot branch never
records any hash, so the second call regenerates instead of returning
Skipped/false, refuting idempotence as stated. -/
theorem c4_counterexample :
    generateDocStrings demoHash (GenOutcome.genOk "docs")
        ⟨none, [("a.ts", "const x = 1;")]⟩ "a.ts"
      = .ok ⟨true, ⟨none, [("a.ts", "docs")]⟩, true⟩
    ∧ generateDocStrings demoHash (GenOutcome.genOk "docs")
        ⟨none, [("a.ts", "docs")]⟩ "a.ts"
      = .ok ⟨true, ⟨none, [("a.ts", "docs")]⟩, true⟩ := ⟨rfl, rfl⟩

/-- C4 (amended): idempotence holds exactly when a snapshot file exists:
if tree.json is present and the first call completes (whatever the
collaborator answered, success or failure), an immediately repeated call on
the resulting state returns false (Skipped) without invoking the
collaborator and leaves the state unchanged.  Without a snapshot file every
call regenerates (see the counterexample). -/
theorem c4_idempotent_with_snapshot (hashF : String → String) (gen gen2 : GenOutcome)
    (st : ModelState) (p : String) (tree : List FileRecord) (r : ProcResult)
    (htree : st.treeJson = some tree)
    (h : generateDocStrings hashF gen st p = .ok r) :
    generateDocStrings hashF gen2 r.state p = .ok ⟨false, r.state, false⟩ := by
  cases hl : lookupFile st.files p with
  | none =>
    unfold generateDocStrings at h
    rw [htree, hl] at h
    exact absurd h (by simp)
  | some c =>
    by_cases hst : isStaleCode (hashF c) (findFileInTree tree p) = true
    · rw [generateDocStrings_stale hashF gen st p tree c htree hl hst] at h
      obtain rfl := Except.ok.inj h
      have htj : (generateDocstringsForFile gen st p).state.treeJson = some tree := by
        rw [generateDocstringsForFile_treeJson]
        exact htree
      obtain ⟨c2, hl2⟩ := generateDocstringsForFile_lookup gen st p c hl
      have hupd := updateFileHashes_single hashF
        (generateDocstringsForFile gen st p).state p tree c2 htj hl2
      show generateDocStrings hashF gen2
        (updateFileHashes hashF (generateDocstringsForFile gen st p).state [p]) p = _
      rw [hupd]
      apply generateDocStrings_skip hashF gen2 _ p (setRecord tree p (hashF c2)) c2 rfl
      · exact hl2
      · rw [findFileInTree_setRecord]
        simp [isStaleCode]
    · have hfalse : isStaleCode (hashF c) (findFileInTree tree p) = false := by
        simpa using hst
      rw [generateDocStrings_skip hashF gen st p tree c htree hl hfalse] at h
      obtain rfl := Except.ok.inj h
      exact generateDocStrings_skip hashF gen2 st p tree c htree hl hfalse

/-- C4, witness: a stale file under an existing snapshot; after the first
(successful) call the repeated call is Skipped. -/
theorem c4_idempotent_with_snapshot_witness :
    generateDocStrings demoHash (GenOutcome.genOk "second")
        ⟨some [⟨"a.ts", demoHash "docs"⟩], [("a.ts", "docs")]⟩ "a.ts"
      = .ok ⟨false, ⟨some [⟨"a.ts", demoHash "docs"⟩], [("a.ts", "docs")]⟩, false⟩ :=
  c4_idempotent_with_snapshot demoHash (GenOutcome.genOk "docs") (GenOutcome.genOk "second")
    ⟨some [⟨"a.ts", "OLD"⟩], [("a.ts", "const x = 1;")]⟩ "a.ts" [⟨"a.ts", "OLD"⟩]
    ⟨true, ⟨some [⟨"a.ts", demoHash "docs"⟩], [("a.ts", "docs")]⟩, true⟩ rfl rfl

/-! ## Claim C7: file-type detection and prompt construction -/

/-- C7: the detected type is a pure function of the extension with exactly
the claimed mapping (ts, tsx, js, jsx, py, everything else Unknown — in
particular `d.xyz`), the prompt is the fixed instructional template with the
type and the full contents interpolated, and every request the helper
actually submits is that template over the detected type of the path and the
file's read contents. -/
theorem c7_type_detection_and_prompt :
    (detectFileType "ts" = "TypeScript" ∧ detectFileType "tsx" = "TSX"
      ∧ detectFileType "js" = "JavaScript" ∧ detectFileType "jsx" = "JSX"
      ∧ detectFileType "py" = "Python")
    ∧ (∀ e : String, e ∉ (["ts", "tsx", "js", "jsx", "py"] : List String) →
        detectFileType e = "Unknown")
    ∧ detectFileType (fileExt "d.xyz") = "Unknown"
    ∧ (∀ ft c : String, buildPrompt ft c = promptPre ++ ft ++ promptMid ++ c ++ promptPost)
    ∧ (∀ (gen : GenOutcome) (st : ModelState) (p c q : String),
        lookupFile st.files p = some c →
        (generateDocstringsForFile gen st p).request = some q →
        q = buildPrompt (detectFileType (fileExt p)) c) := by
  refine ⟨⟨rfl, rfl, rfl, rfl, rfl⟩, ?_, rfl, fun ft c => rfl, ?_⟩
  · intro e he
    simp only [List.mem_cons, List.not_mem_nil, or_false, not_or] at he
    obtain ⟨h1, h2, h3, h4, h5⟩ := he
    unfold detectFileType
    rw [if_neg h1, if_neg h2, if_neg h3, if_neg h4, if_neg h5]
  · intro gen st p c q hc hq
    unfold generateDocstringsForFile generateDocstringsBody at hq
    rw [hc] at hq
    cases gen with
    | genThrow => simp at hq
    | genOk t =>
      by_cases ht : t = ""
      · subst ht
        simp at hq
        exact hq.symm
      · simp [ht] at hq
        exact hq.symm

/-- C7, witness: the hypothesis-bearing parts applied at the scenario's
unknown extension `d.xyz` and at a concrete submitted request. -/
theorem c7_type_detection_and_prompt_witness :
    detectFileType "xyz" = "Unknown"
    ∧ buildPrompt "Unknown" "body"
      = buildPrompt (detectFileType (fileExt "d.xyz")) "body" :=
  ⟨c7_type_detection_and_prompt.2.1 "xyz" (by decide),
   c7_type_detection_and_prompt.2.2.2.2 (GenOutcome.genOk "out")
     ⟨none, [("d.xyz", "body")]⟩ "d.xyz" "body" (buildPrompt "Unknown" "body") rfl rfl⟩

/-! ## Claim C9: the processed output is written back to the source file -/

/-- C9: whenever `generateDocStrings` reports a successful generation, the
file at `filePath` itself now holds the processed collaborator output —
part_001 line 176 writes `processedText` back to `filePath`, not to a
separate artifact store (the model has no separate documentation store at
all, faithfully to part_001). -/
theorem c9_writeback (hashF : String → String) (st : ModelState) (p t : String)
    (res : ProcResult)
    (h : generateDocStrings hashF (GenOutcome.genOk t) st p = .ok res)
    (hg : res.generated = true) :
    lookupFile res.state.files p = some (processResponse t) := by
  cases htree : st.treeJson with
  | none =>
    rw [generateDocStrings_noTree hashF _ st p htree] at h
    obtain rfl := Except.ok.inj h
    rcases generateDocstringsForFile_spec (GenOutcome.genOk t) st p with
      ⟨c0, t0, hc0, hg0, ht0, heq⟩ | ⟨hs, _⟩
    · injection hg0 with ht0'
      subst ht0'
      show lookupFile (generateDocstringsForFile (GenOutcome.genOk t) st p).state.files p = _
      rw [heq]
      exact lookupFile_writeFile _ _ _
    · have hgs : (generateDocstringsForFile (GenOutcome.genOk t) st p).success = true := hg
      rw [hs] at hgs
      exact absurd hgs (by decide)
  | some tree =>
    cases hl : lookupFile st.files p with
    | none =>
      unfold generateDocStrings at h
      rw [htree, hl] at h
      exact absurd h (by simp)
    | some c =>
      by_cases hstale : isStaleCode (hashF c) (findFileInTree tree p) = true
      · rw [generateDocStrings_stale hashF _ st p tree c htree hl hstale] at h
        obtain rfl := Except.ok.inj h
        rcases generateDocstringsForFile_spec (GenOutcome.genOk t) st p with
          ⟨c0, t0, hc0, hg0, ht0, heq⟩ | ⟨hs, _⟩
        · injection hg0 with ht0'
          subst ht0'
          show lookupFile (updateFileHashes hashF
            (generateDocstringsForFile (GenOutcome.genOk t) st p).state [p]).files p = _
          rw [updateFileHashes_files, heq]
          exact lookupFile_writeFile _ _ _
        · have hgs : (generateDocstringsForFile (GenOutcome.genOk t) st p).success = true := hg
          rw [hs] at hgs
          exact absurd hgs (by decide)
      · have hfalse : isStaleCode (hashF c) (findFileInTree tree p) = false := by
          simpa using hstale
        rw [generateDocStrings_skip hashF _ st p tree c htree hl hfalse] at h
        obtain rfl := Except.ok.inj h
        simp at hg

/-- C9, witness: a successful first-run generation; the file now holds the
processed output (the fences of the wrapped response stripped). -/
theorem c9_writeback_witness :
    lookupFile
      (ProcResult.state ⟨true, ⟨none, [("a.ts", "out")]⟩, true⟩).files "a.ts"
      = some (processResponse "out") :=
  c9_writeback demoHash ⟨none, [("a.ts", "const x = 1;")]⟩ "a.ts" "out"
    ⟨true, ⟨none, [("a.ts", "out")]⟩, true⟩ rfl rfl

/-! ## Claim C10: every failure path of the helper returns false, writes nothing -/

/-- C10: `generateDocstringsForFile` is total in the model (it returns a
plain result, never an exception — the catch of lines 181-183 absorbs every
thrown error into the return value false): a response with no usable text
yields false and the state — in particular the file at `filePath` — is
unchanged; more generally every run that returns false leaves the state
unchanged, and every error the body throws produces exactly
`⟨false, st, none⟩`. -/
theorem c10_failure_yields_false (gen : GenOutcome) (st : ModelState) (p : String) :
    (gen = GenOutcome.genOk "" →
      (generateDocstringsForFile gen st p).success = false
      ∧ (generateDocstringsForFile gen st p).state = st)
    ∧ ((generateDocstringsForFile gen st p).success = false →
      (generateDocstringsForFile gen st p).state = st)
    ∧ (∀ e, generateDocstringsBody gen st p = Except.error e →
      generateDocstringsForFile gen st p = ⟨false, st, none⟩) := by
  refine ⟨?_, ?_, ?_⟩
  · rintro rfl
    unfold generateDocstringsForFile generateDocstringsBody
    cases hl : lookupFile st.files p <;> exact ⟨rfl, rfl⟩
  · intro h
    rcases generateDocstringsForFile_spec gen st p with ⟨c0, t0, _, _, _, heq⟩ | ⟨_, hstate⟩
    · rw [heq] at h
      simp at h
    · exact hstate
  · intro e herr
    unfold generateDocstringsForFile
    rw [herr]

/-- C10, witness: an empty-text response on a readable file returns false and
leaves the state unchanged. -/
theorem c10_failure_yields_false_witness :
    (generateDocstringsForFile (GenOutcome.genOk "") ⟨none, [("a.ts", "x")]⟩ "a.ts").success
      = false
    ∧ (generateDocstringsForFile (GenOutcome.genOk "") ⟨none, [("a.ts", "x")]⟩ "a.ts").state
      = ⟨none, [("a.ts", "x")]⟩ :=
  (c10_failure_yields_false (GenOutcome.genOk "") ⟨none, [("a.ts", "x")]⟩ "a.ts").1 rfl

/-! ## Claim C8: the batch command processes every path, in order -/

theorem generateDocs_map_fst (hashF : String → String) (genOf : String → GenOutcome) :
    ∀ (fs : List String) (acc : List (String × FileResult) × ModelState),
      (fs.foldl (generateDocsStep hashF genOf) acc).1.map Prod.fst
        = acc.1.map Prod.fst ++ fs := by
  intro fs
  induction fs with
  | nil =>
    intro acc
    simp
  | cons p ps ih =>
    intro acc
    rw [List.foldl_cons, ih]
    simp [generateDocsStep]

/-- C8: the batch `generate` command records one result per candidate path,
in the caller-supplied order, whatever the per-file outcomes are (the
per-file processor returns failed/skipped results instead of raising, so no
individual failure aborts the loop); the exit code is nonzero exactly for
the top-level failures — the changed-files fetch failing, or (after a
nonempty batch) the HTML rendering failing. -/
theorem c8_batch_continues (hashF : String → String) (genOf : String → GenOutcome)
    (htmlOk : Bool) (st : ModelState) :
    (generateDocs hashF genOf (Except.error ()) htmlOk st).1 = 1
    ∧ ∀ fs : List String,
        (generateDocs hashF genOf (Except.ok fs) htmlOk st).2.1.map Prod.fst = fs
        ∧ (generateDocs hashF genOf (Except.ok fs) htmlOk st).1
            = if fs.isEmpty then 0 else if htmlOk then 0 else 1 := by
  refine ⟨rfl, ?_⟩
  intro fs
  unfold generateDocs
  by_cases hfs : fs.isEmpty = true
  · obtain rfl := List.isEmpty_iff.mp hfs
    simp
  · simp only [if_neg hfs]
    constructor
    · cases htmlOk <;> simpa using generateDocs_map_fst hashF genOf fs ([], st)
    · cases htmlOk <;> simp

/-! ## Claim C5: fence-stripping post-processing -/

/-- C5, counterexample: the empty single fenced block `(three backticks)\n(three backticks)`
is one well-formed fenced block whose inner text is empty (the single-block
regex does match it, capturing the empty group), yet the processed content is
the leftover newline, not the inner text: the JS guard `match and match[1]`
treats the empty capture as no match, and the token-strip pass then leaves
the interior newline behind.  This falsifies the claim that for every single
well-formed fenced block the processed content equals the inner text. -/
theorem c5_counterexample :
    singleBlockInner ("```\n```").data = some ("").data
    ∧ processResponse "```\n```" = "\n"
    ∧ ("\n" : String) ≠ "" := by
  refine ⟨rfl, ?_, by decide⟩
  have e1 : stripFences ['`', '`', '`'] = [] := by
    rw [stripFences_fence]
    show stripFences [] = []
    exact stripFences_nil
  have e2 : stripFences ['\n', '`', '`', '`'] = ['\n'] := by
    rw [stripFences_cons '\n' ['`', '`', '`']
      (fun x h => absurd (List.cons.inj h).1 (by decide))]
    rw [e1]
  have e3 : stripFences ['`', '`', '`', '\n', '`', '`', '`'] = ['\n'] := by
    rw [stripFences_fence]
    show stripFences ['\n', '`', '`', '`'] = ['\n']
    exact e2
  show String.mk (processResponseL ['`', '`', '`', '\n', '`', '`', '`']) = "\n"
  have h4 : processResponseL ['`', '`', '`', '\n', '`', '`', '`']
      = stripFences ['`', '`', '`', '\n', '`', '`', '`'] := by
    unfold processResponseL
    rw [show extractInner ['`', '`', '`', '\n', '`', '`', '`']
        = ['`', '`', '`', '\n', '`', '`', '`'] from rfl]
    rw [if_pos (show hasFence ['`', '`', '`', '\n', '`', '`', '`'] = true from rfl)]
  rw [h4, e3]

/-- C5 (amended): if the generated text is exactly one well-formed fenced
block whose inner text is nonempty and fence-free, the processed content
equals the inner text; and for every input whatsoever — including multiple
or malformed fence tokens — the processed content contains no fence
delimiter token.  (The original claim fails only for the empty single block,
where the processed content is a newline rather than the empty inner text.) -/
theorem c5_fence_stripping :
    (∀ lang inner : String,
        lang ∈ (["", "ts", "tsx", "js", "jsx", "python", "py"] : List String) →
        inner ≠ "" → hasFence inner.data = false →
        processResponse ("```" ++ lang ++ "\n" ++ inner ++ "```") = inner)
    ∧ ∀ text : String, hasFence (processResponse text).data = false := by
  constructor
  · intro lang inner hlang hne hnf
    have hdata : ("```" ++ lang ++ "\n" ++ inner ++ "```").data
        = '`' :: '`' :: '`' :: (lang.data ++ '\n' :: (inner.data ++ ['`', '`', '`'])) := by
      simp only [string_data_append, List.append_assoc]
      rfl
    have hmem : lang.data ∈ langTags := by
      fin_cases hlang <;> decide
    have hie : inner.data.isEmpty = false := by
      rcases inner with ⟨d⟩
      cases d with
      | nil => exact absurd rfl hne
      | cons a b => rfl
    show String.mk (processResponseL ("```" ++ lang ++ "\n" ++ inner ++ "```").data) = inner
    rw [hdata, processResponseL_wrap lang.data inner.data hmem hie hnf]
  · intro text
    exact hasFence_processResponseL text.data

/-- C5, witness: the amended theorem applied at a concrete wrapped response
and at a concrete malformed-fence response. -/
theorem c5_fence_stripping_witness :
    processResponse "```ts\nconst x = 1;```" = "const x = 1;"
    ∧ hasFence (processResponse "a ``` b ```py c").data = false :=
  ⟨c5_fence_stripping.1 "ts" "const x = 1;" (by decide) (by decide) (by decide),
   c5_fence_stripping.2 "a ``` b ```py c"⟩

end DavisHacks
